import Mathlib

/-!
Shallow embedding of the kuri MCP server framework (crates `kuri` and
`kuri_mcp_protocol`), covering the JSON-RPC message model, the message
service dispatcher, the request (batch) service, result folding for tool
handlers, and the line-framed transport loop, together with theorems about
the claims of the specification.

Rust `Result<T, E>` is modelled as `Except E T`, `Option<T>` as `Option T`,
`HashMap<String, V>` as an association list with replace-on-insert, and
`serde_json::Value` as the inductive type `Json` below.  A Rust panic
(`unreachable!()` or a non-exhaustive match) is modelled by an outer
`Option`, with `none` standing for the panic.
-/

namespace Kuri

/-- Model of `serde_json::Value`: JSON values.  Numbers are modelled as
integers (the claims under study only involve integral numbers). -/
inductive Json where
  | null
  | bool (b : Bool)
  | num (n : Int)
  | str (s : String)
  | arr (elems : List Json)
  | obj (fields : List (String × Json))
  deriving Repr

/-- `Value::as_str`. -/
def Json.asStr : Json → Option String
  | .str s => some s
  | _ => none

/-- `Value::as_object` (the field list of an object). -/
def Json.asObj : Json → Option (List (String × Json))
  | .obj fields => some fields
  | _ => none

/-- `map.get(key)` on a JSON object's map (first binding wins). -/
def Json.getField : Json → String → Option Json
  | .obj fields, key => fields.lookup key
  | _, _ => none

/-- `RequestId` from `kuri_mcp_protocol/src/jsonrpc.rs`: a message id is a
number (`u64`, modelled as `Nat`), a string, or null. -/
inductive RequestId where
  | Num (n : Nat)
  | Str (s : String)
  | Null
  deriving Repr, DecidableEq

/-- `RequestId::null`. -/
def RequestId.null : RequestId := .Null

/-- `RequestId::is_null`. -/
def RequestId.isNull : RequestId → Bool
  | .Null => true
  | _ => false

/-- `JsonRpcVersion`: the protocol version; only `"2.0"` is representable. -/
inductive JsonRpcVersion where
  | V2
  deriving Repr, DecidableEq

/-- `Params`: structured request parameters, an array or a map (never a
scalar). -/
inductive Params where
  | Array (elems : List Json)
  | Map (fields : List (String × Json))
  deriving Repr

/-- `MethodCall`: a JSON-RPC request. -/
structure MethodCall where
  jsonrpc : JsonRpcVersion
  id : RequestId
  method : String
  params : Option Params
  deriving Repr

/-- `Notification`: a JSON-RPC notification (no id). -/
structure Notification where
  jsonrpc : JsonRpcVersion
  method : String
  params : Option Params
  deriving Repr

/-- `SendableMessage`: one inbound JSON-RPC message. -/
inductive SendableMessage where
  | Request (req : MethodCall)
  | Notification (note : Kuri.Notification)
  | Invalid (id : RequestId)
  deriving Repr

/-- Wire-level `Request`: a single message or a batch. -/
inductive Request where
  | Single (msg : SendableMessage)
  | Batch (msgs : List SendableMessage)
  deriving Repr

/-- `ErrorCode` from `jsonrpc.rs`: standard JSON-RPC error codes plus
custom codes (`i32`, modelled as `Int`). -/
inductive ErrorCode where
  | ParseError
  | InvalidRequest
  | MethodNotFound
  | InvalidParams
  | InternalError
  | Custom (code : Int)
  deriving Repr, DecidableEq

/-- `ErrorCode::code`: the numeric representation. -/
def ErrorCode.code : ErrorCode → Int
  | .ParseError => -32700
  | .InvalidRequest => -32600
  | .MethodNotFound => -32601
  | .InvalidParams => -32602
  | .InternalError => -32603
  | .Custom code => code

/-- `Deserialize for ErrorCode`: recover an `ErrorCode` from its integer
representation. -/
def ErrorCode.deserialize (code : Int) : ErrorCode :=
  if code = -32700 then .ParseError
  else if code = -32600 then .InvalidRequest
  else if code = -32601 then .MethodNotFound
  else if code = -32602 then .InvalidParams
  else if code = -32603 then .InternalError
  else .Custom code

/-- `ErrorData`: the error body of a JSON-RPC error response. -/
structure ErrorData where
  code : ErrorCode
  message : String
  data : Option Json
  deriving Repr

/-- `ErrorData::new`: an error body with no additional data. -/
def ErrorData.new (code : ErrorCode) (message : String) : ErrorData :=
  ⟨code, message, none⟩

/-- `ResponseItem`: one outbound JSON-RPC response. -/
inductive ResponseItem where
  | Success (jsonrpc : JsonRpcVersion) (id : RequestId) (result : Json)
  | Error (jsonrpc : JsonRpcVersion) (id : RequestId) (error : ErrorData)
  deriving Repr

/-- `ResponseItem::success`. -/
def ResponseItem.success (id : RequestId) (result : Json) : ResponseItem :=
  .Success .V2 id result

/-- `ResponseItem.error`. -/
def ResponseItem.error (id : RequestId) (error : ErrorData) : ResponseItem :=
  .Error .V2 id error

/-- The id carried by a response item (the `id` field of either variant). -/
def ResponseItem.rid : ResponseItem → RequestId
  | .Success _ id _ => id
  | .Error _ id _ => id

/-- Wire-level `Response`: a single (optional) response or a batch. -/
inductive Response where
  | Single (item : Option ResponseItem)
  | Batch (items : List ResponseItem)
  deriving Repr

/-! ### Content and MCP payload types (`kuri_mcp_protocol`) -/

/-- `Role` from `content.rs`. -/
inductive Role where
  | User
  | Assistant
  deriving Repr, DecidableEq

/-- `Annotations` from `content.rs`; the `f32` priority is modelled as an
integer number of basis points, which the claims never inspect. -/
structure Annotations where
  audience : Option (List Role)
  priority : Option Int
  deriving Repr

/-- `ResourceContents` from `resource.rs`. -/
inductive ResourceContents where
  | TextResourceContents (uri : String) (mimeType : Option String) (text : String)
  | BlobResourceContents (uri : String) (mimeType : Option String) (blob : String)
  deriving Repr

/-- `Content` from `content.rs`: a tool/prompt result payload. -/
inductive Content where
  | Text (text : String) (annotations : Option Annotations)
  | Image (data : String) (mimeType : String) (annotations : Option Annotations)
  | Resource (resource : ResourceContents) (annotations : Option Annotations)
  | Audio (data : String) (mimeType : String) (annotations : Option Annotations)
  deriving Repr

/-- `Content::text`. -/
def Content.text (s : String) : Content := .Text s none

/-- `CallToolResult` from `messages.rs`: the outcome of a tool call. -/
structure CallToolResult where
  content : List Content
  is_error : Bool
  deriving Repr

/-- `Tool` from `tool.rs`: tool metadata surfaced by `tools/list`. -/
structure Tool where
  name : String
  description : String
  input_schema : Json
  deriving Repr

/-- `ToolError` from `tool.rs`: errors raised by a tool handler. -/
inductive ToolError where
  | InvalidParameters (msg : String)
  | ExecutionError (msg : String)
  | SchemaError (msg : String)
  | NotFound (msg : String)
  deriving Repr, DecidableEq

/-- `ResourceError` from `resource.rs`. -/
inductive ResourceError where
  | ExecutionError (msg : String)
  | NotFound (msg : String)
  | InvalidUri (uri : String) (err : String)
  deriving Repr

/-- The `thiserror` display string of a `ResourceError`. -/
def ResourceError.display : ResourceError → String
  | .ExecutionError msg => "Execution failed: " ++ msg
  | .NotFound msg => "Resource not found: " ++ msg
  | .InvalidUri uri err => "Invalid URI: " ++ uri ++ ". Error: " ++ err

/-- Modelled from the spec: `kuri_mcp_protocol/src/prompt.rs` is declared in
`lib.rs` but missing from the source tree.  `PromptArgument` is "each
argument has name, description?, required?" (spec §3, Prompt arguments). -/
structure PromptArgument where
  name : String
  description : Option String
  required : Option Bool
  deriving Repr

/-- Modelled from the spec: `prompt.rs` is missing from the source tree.
`Prompt` metadata has "name, description?, arguments?" (spec §3); the
constructor mirrors `PromptMeta::new` as called in `service.rs`. -/
structure Prompt where
  name : String
  description : Option String
  arguments : Option (List PromptArgument)
  deriving Repr

/-- Modelled from the spec: `prompt.rs` is missing from the source tree.
The `PromptError` variants are exactly those matched in
`MCPService::handle_prompts_get` (`InvalidParameters`, `NotFound`,
`InternalError`). -/
inductive PromptError where
  | InvalidParameters (msg : String)
  | NotFound (msg : String)
  | InternalError (msg : String)
  deriving Repr

/-- Modelled from the spec: the display strings of `PromptError`, as pinned
by the integration tests (an unknown prompt surfaces as
"Prompt not found: ..."). -/
def PromptError.display : PromptError → String
  | .InvalidParameters msg => "Invalid parameters: " ++ msg
  | .NotFound msg => "Prompt not found: " ++ msg
  | .InternalError msg => "Internal error: " ++ msg

/-! ### Request errors and their conversions (`kuri/src/errors.rs`) -/

/-- `RequestError` from `errors.rs`: errors raised while processing a
request. -/
inductive RequestError where
  | MethodNotFound (msg : String)
  | InvalidParams (msg : String)
  | Internal (msg : String)
  | ToolNotFound (msg : String)
  | ResourceNotFound (msg : String)
  | PromptNotFound (msg : String)
  | Unsupported (msg : String)
  deriving Repr

/-- `impl From<RequestError> for ErrorData` (`errors.rs`): the wire error
code and message for each request error. -/
def ErrorData.fromRequestError : RequestError → ErrorData
  | .MethodNotFound msg => ⟨.MethodNotFound, msg, none⟩
  | .InvalidParams msg => ⟨.InvalidParams, msg, none⟩
  | .Internal msg => ⟨.InternalError, msg, none⟩
  | .ToolNotFound msg => ⟨.InvalidRequest, msg, none⟩
  | .ResourceNotFound msg => ⟨.InvalidRequest, msg, none⟩
  | .PromptNotFound msg => ⟨.InvalidRequest, msg, none⟩
  | .Unsupported msg => ⟨.InvalidRequest, msg, none⟩

/-- `impl From<ResourceError> for RequestError` (`errors.rs`). -/
def RequestError.fromResourceError : ResourceError → RequestError
  | .NotFound msg => .ResourceNotFound msg
  | err => .Internal ("Unknown resource error: " ++ err.display)

/-- `impl From<ToolError> for RequestError` (`errors.rs`).  The
`ExecutionError` arm is `unreachable!()` in the source — a panic — and is
modelled as `none`. -/
def RequestError.fromToolError : ToolError → Option RequestError
  | .NotFound msg => some (.ToolNotFound msg)
  | .InvalidParameters msg => some (.InvalidParams msg)
  | .SchemaError msg => some (.InvalidParams msg)
  | .ExecutionError _ => none

/-! ### Result folding (`kuri/src/response.rs`) -/

/-- `successful_text_response` from `response.rs`. -/
def successfulTextResponse (text : String) : Except ToolError CallToolResult :=
  .ok ⟨[Content.text text], false⟩

/-- The `IntoCallToolResult` impl for `Vec<Content>` (`response.rs`). -/
def intoCallToolResultContents (contents : List Content) :
    Except ToolError CallToolResult :=
  .ok ⟨contents, false⟩

/-- The `IntoCallToolResult` impl for `()` (`response.rs`). -/
def intoCallToolResultUnit : Except ToolError CallToolResult :=
  .ok ⟨[], false⟩

/-- The `IntoCallToolResult` impl for `Result<T, ToolError>` (`response.rs`):
`f` is the inner type `T`'s own conversion.  `Ok` recurses on the value;
`Err(ExecutionError(msg))` is folded into a successful `CallToolResult` with
`is_error = true`; every other error variant propagates. -/
def intoCallToolResultExcept {T : Type}
    (f : T → Except ToolError CallToolResult) :
    Except ToolError T → Except ToolError CallToolResult
  | .ok value => f value
  | .error (.ExecutionError msg) =>
      .ok ⟨[Content.text ("Error: " ++ msg)], true⟩
  | .error otherErr => .error otherErr

/-! ### Handlers (`kuri/src/handler.rs` and the `#[tool]` code generator) -/

/-- The `ToolHandler` trait (`handler.rs`) as a record of its methods.
`call(&self, context, params)` closes over the service's frozen `Context`,
so the context argument is not repeated here. -/
structure ToolHandler where
  name : String
  description : String
  schema : Json
  call : Json → Except ToolError CallToolResult

/-- The `PromptHandler` trait (`handler.rs`) as a record of its methods. -/
structure PromptHandler where
  name : String
  description : Option String
  arguments : Option (List PromptArgument)
  call : List (String × Json) → Except PromptError String

/-- A tool handler body as generated by the `#[tool]` macro
(`kuri_macros/src/tool.rs`), split into its two stages: `deser` models
`serde_json::from_value::<...Parameters>` on the tool's parameter record
`P`, and `run` models the user function followed by its
`IntoCallToolResult` conversion. -/
structure GenTool (P : Type) where
  deser : Json → Option P
  run : P → Except ToolError CallToolResult

/-- The generated `ToolHandler::call` body (`kuri_macros/src/tool.rs`,
`call_impl` with parameters): a failed parameter deserialisation becomes
`ToolError::InvalidParameters("Missing or incorrect tool arguments")`. -/
def genToolCall {P : Type} (t : GenTool P) (params : Json) :
    Except ToolError CallToolResult :=
  match t.deser params with
  | none => .error (.InvalidParameters "Missing or incorrect tool arguments")
  | some p => t.run p

/-! ### Service state and builder (`kuri/src/service.rs`) -/

/-- `HashMap::insert` on the association-list model of the tool/prompt maps:
an existing binding for the key is replaced, otherwise the binding is
appended. -/
def mapInsert {α : Type} : List (String × α) → String → α → List (String × α)
  | [], key, v => [(key, v)]
  | (k', v') :: rest, key, v =>
      if k' = key then (key, v) :: rest else (k', v') :: mapInsert rest key v

/-- `MCPService`: the built, frozen service.  The type-keyed `Context` is
not observable through any claim under study; handlers close over it.  The
notification sink's effect is outside the pure model, so only its presence
is recorded. -/
structure MCPService where
  name : String
  version : String
  instructions : Option String
  tools : List (String × ToolHandler)
  prompts : List (String × PromptHandler)
  hasNotificationHandler : Bool

/-- `MCPServiceBuilder`. -/
structure MCPServiceBuilder where
  name : String
  version : String
  instructions : Option String
  tools : List (String × ToolHandler)
  prompts : List (String × PromptHandler)
  hasNotificationHandler : Bool

/-- `MCPServiceBuilder::new`. -/
def MCPServiceBuilder.new (name : String) : MCPServiceBuilder :=
  ⟨name, "0.1.0", none, [], [], false⟩

/-- `MCPServiceBuilder::with_version`. -/
def MCPServiceBuilder.withVersion (b : MCPServiceBuilder) (version : String) :
    MCPServiceBuilder :=
  { b with version := version }

/-- `MCPServiceBuilder::with_instructions`. -/
def MCPServiceBuilder.withInstructions (b : MCPServiceBuilder)
    (instructions : String) : MCPServiceBuilder :=
  { b with instructions := some instructions }

/-- `MCPServiceBuilder::with_tool`: inserts keyed by `tool.name()`. -/
def MCPServiceBuilder.withTool (b : MCPServiceBuilder) (tool : ToolHandler) :
    MCPServiceBuilder :=
  { b with tools := mapInsert b.tools tool.name tool }

/-- `MCPServiceBuilder::with_prompt`: inserts keyed by `prompt.name()`. -/
def MCPServiceBuilder.withPrompt (b : MCPServiceBuilder)
    (prompt : PromptHandler) : MCPServiceBuilder :=
  { b with prompts := mapInsert b.prompts prompt.name prompt }

/-- `MCPServiceBuilder::build`. -/
def MCPServiceBuilder.build (b : MCPServiceBuilder) : MCPService :=
  ⟨b.name, b.version, b.instructions, b.tools, b.prompts,
    b.hasNotificationHandler⟩

/-! ### Capabilities (`messages.rs`, `service.rs`) -/

/-- `ToolsCapability` from `messages.rs`. -/
structure ToolsCapability where
  list_changed : Option Bool
  deriving Repr, DecidableEq

/-- `PromptsCapability` from `messages.rs`. -/
structure PromptsCapability where
  list_changed : Option Bool
  deriving Repr, DecidableEq

/-- `ResourcesCapability` from `messages.rs`. -/
structure ResourcesCapability where
  subscribe : Option Bool
  list_changed : Option Bool
  deriving Repr, DecidableEq

/-- `ServerCapabilities` from `messages.rs`. -/
structure ServerCapabilities where
  prompts : Option PromptsCapability
  resources : Option ResourcesCapability
  tools : Option ToolsCapability
  deriving Repr, DecidableEq

/-- `MCPService::capabilities` (`service.rs`): the tools capability (with
`listChanged = false`) is present iff the tool map is non-empty, likewise
for prompts; resources are never advertised. -/
def MCPService.capabilities (s : MCPService) : ServerCapabilities :=
  { prompts := if s.prompts.isEmpty then none else some ⟨some false⟩
    resources := none
    tools := if s.tools.isEmpty then none else some ⟨some false⟩ }

/-! ### Serialisation of result payloads (models of `serde_json::to_value`)

The serialisers below are total: `serde_json::to_value` never fails on
these purely map/list/scalar-shaped types, so the `Err` arms in the source
(mapped to `RequestError::Internal("JSON serialization error: ...")`) are
dead code. -/

/-- Serialise an optional boolean field that is not skipped when absent. -/
def optBoolJson : Option Bool → Json
  | some b => .bool b
  | none => .null

/-- Serialise `ToolsCapability` (camelCase). -/
def ToolsCapability.toJson (c : ToolsCapability) : Json :=
  .obj [("listChanged", optBoolJson c.list_changed)]

/-- Serialise `PromptsCapability` (camelCase). -/
def PromptsCapability.toJson (c : PromptsCapability) : Json :=
  .obj [("listChanged", optBoolJson c.list_changed)]

/-- Serialise `ResourcesCapability` (camelCase). -/
def ResourcesCapability.toJson (c : ResourcesCapability) : Json :=
  .obj [("subscribe", optBoolJson c.subscribe),
        ("listChanged", optBoolJson c.list_changed)]

/-- Serialise `ServerCapabilities`: absent capabilities are skipped. -/
def ServerCapabilities.toJson (c : ServerCapabilities) : Json :=
  .obj ((match c.prompts with
         | some p => [("prompts", p.toJson)]
         | none => []) ++
        (match c.resources with
         | some r => [("resources", r.toJson)]
         | none => []) ++
        (match c.tools with
         | some t => [("tools", t.toJson)]
         | none => []))

/-- Serialise `InitializeResult` (camelCase; `instructions` skipped when
absent).  `serverInfo` is the `Implementation { name, version }` pair. -/
def initializeResultJson (protocolVersion : String)
    (capabilities : ServerCapabilities) (name version : String)
    (instructions : Option String) : Json :=
  .obj ([("protocolVersion", .str protocolVersion),
         ("capabilities", capabilities.toJson),
         ("serverInfo", .obj [("name", .str name), ("version", .str version)])] ++
        (match instructions with
         | some i => [("instructions", .str i)]
         | none => []))

/-- Serialise `Annotations` (camelCase, absent fields skipped). -/
def Annotations.toJson (a : Annotations) : Json :=
  .obj ((match a.audience with
         | some roles => [("audience", .arr (roles.map fun r =>
             match r with
             | .User => .str "user"
             | .Assistant => .str "assistant"))]
         | none => []) ++
        (match a.priority with
         | some p => [("priority", .num p)]
         | none => []))

/-- Serialise an optional `annotations` field (skipped when absent). -/
def annotationsField : Option Annotations → List (String × Json)
  | some a => [("annotations", a.toJson)]
  | none => []

/-- Serialise an optional `mimeType` field (skipped when absent). -/
def mimeTypeField : Option String → List (String × Json)
  | some m => [("mimeType", .str m)]
  | none => []

/-- Serialise `ResourceContents` (untagged, camelCase). -/
def ResourceContents.toJson : ResourceContents → Json
  | .TextResourceContents uri mimeType text =>
      .obj ([("uri", .str uri)] ++ mimeTypeField mimeType ++
            [("text", .str text)])
  | .BlobResourceContents uri mimeType blob =>
      .obj ([("uri", .str uri)] ++ mimeTypeField mimeType ++
            [("blob", .str blob)])

/-- Serialise `Content` (internally tagged by `type`, camelCase). -/
def Content.toJson : Content → Json
  | .Text text annots =>
      .obj ([("type", .str "text"), ("text", .str text)] ++
            annotationsField annots)
  | .Image data mimeType annots =>
      .obj ([("type", .str "image"), ("data", .str data),
             ("mimeType", .str mimeType)] ++ annotationsField annots)
  | .Resource resource annots =>
      .obj ([("type", .str "resource"), ("resource", resource.toJson)] ++
            annotationsField annots)
  | .Audio data mimeType annots =>
      .obj ([("type", .str "audio"), ("data", .str data),
             ("mimeType", .str mimeType)] ++ annotationsField annots)

/-- Serialise `CallToolResult` (camelCase; `isError` is skipped when
false). -/
def CallToolResult.toJson (r : CallToolResult) : Json :=
  .obj ([("content", .arr (r.content.map Content.toJson))] ++
        (if r.is_error then [("isError", .bool true)] else []))

/-- Serialise `Tool` metadata (camelCase). -/
def Tool.toJson (t : Tool) : Json :=
  .obj [("name", .str t.name), ("description", .str t.description),
        ("inputSchema", t.input_schema)]

/-- Serialise `ListToolsResult`. -/
def listToolsResultJson (tools : List Tool) : Json :=
  .obj [("tools", .arr (tools.map Tool.toJson))]

/-- Serialise `ListResourcesResult`. -/
def listResourcesResultJson (resources : List Json) : Json :=
  .obj [("resources", .arr resources)]

/-- Serialise `ReadResourceResult`. -/
def readResourceResultJson (contents : List ResourceContents) : Json :=
  .obj [("contents", .arr (contents.map ResourceContents.toJson))]

/-- Modelled from the spec: serialise `PromptArgument` (`prompt.rs` is
missing from the source tree); each declared argument appears with `name`,
optional `description`, and `required`. -/
def PromptArgument.toJson (a : PromptArgument) : Json :=
  .obj ([("name", .str a.name)] ++
        (match a.description with
         | some d => [("description", .str d)]
         | none => []) ++
        (match a.required with
         | some r => [("required", .bool r)]
         | none => []))

/-- Modelled from the spec: serialise `Prompt` metadata (`prompt.rs` is
missing from the source tree). -/
def Prompt.toJson (p : Prompt) : Json :=
  .obj ([("name", .str p.name)] ++
        (match p.description with
         | some d => [("description", .str d)]
         | none => []) ++
        (match p.arguments with
         | some args => [("arguments", .arr (args.map PromptArgument.toJson))]
         | none => []))

/-- Serialise `ListPromptsResult`. -/
def listPromptsResultJson (prompts : List Prompt) : Json :=
  .obj [("prompts", .arr (prompts.map Prompt.toJson))]

/-- Modelled from the spec: serialise `GetPromptResult` (`prompt.rs` is
missing from the source tree).  The handler wraps the rendered prompt text
in a single user-role text message. -/
def getPromptResultJson (promptMessage : String) : Json :=
  .obj [("messages", .arr [
    .obj [("role", .str "user"),
          ("content", .obj [("type", .str "text"),
                            ("text", .str promptMessage)])]])]

/-! ### `MCPServiceTrait` operations (`service.rs`) -/

/-- `MCPService::list_tools`: tool metadata for every registered tool,
keyed by the map key. -/
def MCPService.listTools (s : MCPService) : List Tool :=
  s.tools.map fun kv => ⟨kv.1, kv.2.description, kv.2.schema⟩

/-- `MCPService::call_tool`: look the tool up by name; an unknown name is
`ToolError::NotFound(tool_name)`. -/
def MCPService.callTool (s : MCPService) (toolName : String)
    (arguments : Json) : Except ToolError CallToolResult :=
  match s.tools.lookup toolName with
  | none => .error (.NotFound toolName)
  | some tool => tool.call arguments

/-- `MCPService::list_resources`: not implemented, always empty. -/
def MCPService.listResources (_s : MCPService) : List Json := []

/-- `MCPService::read_resource`: not implemented, always an
`ExecutionError`. -/
def MCPService.readResource (_s : MCPService) (_uri : String) :
    Except ResourceError String :=
  .error (.ExecutionError "Reading resources is not yet implemented")

/-- `MCPService::list_prompts`: prompt metadata for every registered
prompt, using the handler's own `name()`. -/
def MCPService.listPrompts (s : MCPService) : List Prompt :=
  s.prompts.map fun kv => ⟨kv.2.name, kv.2.description, kv.2.arguments⟩

/-- `MCPService::get_prompt`: look the prompt up by name; an unknown name
is `PromptError::NotFound(prompt_name)`. -/
def MCPService.getPrompt (s : MCPService) (promptName : String)
    (arguments : List (String × Json)) : Except PromptError String :=
  match s.prompts.lookup promptName with
  | none => .error (.NotFound promptName)
  | some prompt => prompt.call arguments

/-! ### Method handlers (`service.rs`)

Each handler yields `Option (Except RequestError ResponseItem)`; the outer
`none` models a Rust panic (only `handle_tools_call` can panic, through the
`unreachable!()` arm of `From<ToolError> for RequestError`). -/

/-- `get_request_params`: validate that parameters are present and are a
map. -/
def getRequestParams : Option Params →
    Except RequestError (List (String × Json))
  | some (.Map fields) => .ok fields
  | some _ => .error (.InvalidParams "Parameters must be a map-like object")
  | none => .error (.InvalidParams "The request was empty")

/-- `MCPService::handle_ping`: `{}` success. -/
def handlePing (_s : MCPService) (req : MethodCall) :
    Option (Except RequestError ResponseItem) :=
  some (.ok (ResponseItem.success req.id (.obj [])))

/-- `MCPService::handle_initialize`. -/
def handleInitialize (s : MCPService) (req : MethodCall) :
    Option (Except RequestError ResponseItem) :=
  some (.ok (ResponseItem.success req.id
    (initializeResultJson "2024-11-05" s.capabilities s.name s.version
      s.instructions)))

/-- `MCPService::handle_tools_list`: request params are ignored. -/
def handleToolsList (s : MCPService) (req : MethodCall) :
    Option (Except RequestError ResponseItem) :=
  some (.ok (ResponseItem.success req.id (listToolsResultJson s.listTools)))

/-- `MCPService::handle_tools_call`: validate the params map, extract the
required string `name`, default a missing `arguments` to JSON null, call
the tool, convert tool errors through `From<ToolError> for RequestError`
(whose `ExecutionError` arm panics, modelled as `none`). -/
def handleToolsCall (s : MCPService) (req : MethodCall) :
    Option (Except RequestError ResponseItem) :=
  match getRequestParams req.params with
  | .error e => some (.error e)
  | .ok params =>
    match (params.lookup "name").bind Json.asStr with
    | none => some (.error (.InvalidParams "No tool name was provided"))
    | some name =>
      let arguments := (params.lookup "arguments").getD Json.null
      match s.callTool name arguments with
      | .ok result =>
          some (.ok (ResponseItem.success req.id result.toJson))
      | .error e =>
          match RequestError.fromToolError e with
          | some re => some (.error re)
          | none => none

/-- `MCPService::handle_resources_list`. -/
def handleResourcesList (s : MCPService) (req : MethodCall) :
    Option (Except RequestError ResponseItem) :=
  some (.ok (ResponseItem.success req.id
    (listResourcesResultJson s.listResources)))

/-- `MCPService::handle_resources_read`. -/
def handleResourcesRead (s : MCPService) (req : MethodCall) :
    Option (Except RequestError ResponseItem) :=
  some <|
    match getRequestParams req.params with
    | .error e => .error e
    | .ok params =>
      match (params.lookup "uri").bind Json.asStr with
      | none => .error (.InvalidParams "Missing resource URI")
      | some uri =>
        match s.readResource uri with
        | .error e => .error (RequestError.fromResourceError e)
        | .ok contents =>
            .ok (ResponseItem.success req.id (readResourceResultJson
              [.TextResourceContents uri (some "text/plain") contents]))

/-- `MCPService::handle_prompts_list`. -/
def handlePromptsList (s : MCPService) (req : MethodCall) :
    Option (Except RequestError ResponseItem) :=
  some (.ok (ResponseItem.success req.id
    (listPromptsResultJson s.listPrompts)))

/-- `MCPService::handle_prompts_get`: validate the params map, extract the
required string `name` and the required `arguments` object, call the
prompt, map `PromptError` to `RequestError` (`InvalidParameters` and
`NotFound` both to `InvalidParams`, `InternalError` to `Internal`, each
carrying the error's display string). -/
def handlePromptsGet (s : MCPService) (req : MethodCall) :
    Option (Except RequestError ResponseItem) :=
  some <|
    match getRequestParams req.params with
    | .error e => .error e
    | .ok params =>
      match (params.lookup "name").bind Json.asStr with
      | none => .error (.InvalidParams "Missing prompt name")
      | some promptName =>
        match (params.lookup "arguments").bind Json.asObj with
        | none => .error (.InvalidParams "Missing arguments object")
        | some arguments =>
          match s.getPrompt promptName arguments with
          | .error e =>
            .error (match e with
              | .InvalidParameters _ => .InvalidParams e.display
              | .NotFound _ => .InvalidParams e.display
              | .InternalError _ => .Internal e.display)
          | .ok promptMessage =>
              .ok (ResponseItem.success req.id
                (getPromptResultJson promptMessage))

/-- `impl Service<SendableMessage> for MCPService`, `call`
(`service.rs:552`): route a method call by its `method` string, fold a
handler error into an error response carrying the request's id; a
notification yields no response; an `Invalid` message yields an
`InvalidRequest` error with the carried id.  The outer `Option` models a
Rust panic. -/
def MCPService.call (s : MCPService) :
    SendableMessage → Option (Option ResponseItem)
  | .Request req =>
    let id := req.id
    let result :=
      match req.method with
      | "ping" => handlePing s req
      | "initialize" => handleInitialize s req
      | "tools/list" => handleToolsList s req
      | "tools/call" => handleToolsCall s req
      | "resources/list" => handleResourcesList s req
      | "resources/read" => handleResourcesRead s req
      | "prompts/list" => handlePromptsList s req
      | "prompts/get" => handlePromptsGet s req
      | other => some (.error (.MethodNotFound other))
    match result with
    | none => none
    | some (.ok response) => some (some response)
    | some (.error e) =>
        some (some (ResponseItem.error id (ErrorData.fromRequestError e)))
  | .Notification _ => some none
  | .Invalid id =>
      some (some (ResponseItem.error id
        (ErrorData.new .InvalidRequest "Invalid request")))

/-- `futures::future::join_all` over the per-message calls of a batch: the
list of all results, with a panic (`none`) in any member propagating to the
whole batch. -/
def joinAll {α β : Type} (f : α → Option β) : List α → Option (List β)
  | [] => some []
  | a :: as =>
    match f a, joinAll f as with
    | some b, some bs => some (b :: bs)
    | _, _ => none

/-- `impl Service<Request> for MCPRequestService`, `call`
(`service.rs:632`): a single message is forwarded to the inner service; an
empty batch is answered with a single `InvalidRequest` error with id Null;
a non-empty batch fans out to the inner service and the notifications'
`None` responses are filtered out.  The inner service is any
`Service<SendableMessage>` (modelled as a function, with the outer `Option`
again standing for a panic, which `join_all` propagates). -/
def MCPRequestService.call
    (inner : SendableMessage → Option (Option ResponseItem)) :
    Request → Option Response
  | .Single msg => (inner msg).map Response.Single
  | .Batch msgs =>
    if msgs.isEmpty then
      some (.Single (some (ResponseItem.error RequestId.null
        (ErrorData.new .InvalidRequest "Invalid request: batch is empty"))))
    else
      (joinAll inner msgs).map fun responses =>
        .Batch (responses.filterMap id)

/-! ### Deserialisation of inbound messages (`jsonrpc.rs`)

Models of the serde `Deserialize` impls on already-parsed `Json` values.
A result of `none` models a serde error. -/

/-- `Deserialize for RequestId` (untagged): a non-negative integral number
is `Num`, a string is `Str`, JSON null is `Null`; anything else fails. -/
def RequestId.fromJson : Json → Option RequestId
  | .num n => if 0 ≤ n then some (.Num n.toNat) else none
  | .str s => some (.Str s)
  | .null => some .Null
  | _ => none

/-- `TryFrom<String> for JsonRpcVersion`: only the string `"2.0"` is
accepted. -/
def JsonRpcVersion.fromJson : Json → Option JsonRpcVersion
  | .str "2.0" => some .V2
  | _ => none

/-- `Deserialize for Params` (untagged): an array or an object; a scalar
fails. -/
def Params.fromJson : Json → Option Params
  | .arr elems => some (.Array elems)
  | .obj fields => some (.Map fields)
  | _ => none

/-- The serde handling of the optional `params` field: an absent field and
an explicit JSON null both give `none`; otherwise the value must be a valid
`Params`. -/
def paramsFieldFromJson (fields : List (String × Json)) :
    Option (Option Params) :=
  match fields.lookup "params" with
  | none => some none
  | some .null => some none
  | some v => (Params.fromJson v).map some

/-- Derived `Deserialize for MethodCall`: an object with a `"2.0"`
`jsonrpc` field, an `id` deserialisable as a `RequestId`, a string
`method`, and optional `params`; unknown fields are ignored. -/
def MethodCall.fromJson : Json → Option MethodCall
  | .obj fields => do
    let ver ← (fields.lookup "jsonrpc").bind JsonRpcVersion.fromJson
    let id ← (fields.lookup "id").bind RequestId.fromJson
    let method ← (fields.lookup "method").bind Json.asStr
    let params ← paramsFieldFromJson fields
    some ⟨ver, id, method, params⟩
  | _ => none

/-- Derived `Deserialize for Notification`: as `MethodCall` but with no
`id` field required (an `id` field, if present, is ignored as an unknown
field). -/
def Notification.fromJson : Json → Option Notification
  | .obj fields => do
    let ver ← (fields.lookup "jsonrpc").bind JsonRpcVersion.fromJson
    let method ← (fields.lookup "method").bind Json.asStr
    let params ← paramsFieldFromJson fields
    some ⟨ver, method, params⟩
  | _ => none

/-- `Deserialize for SendableMessage` (`jsonrpc.rs:35`): try `MethodCall`,
then `Notification`; otherwise produce `Invalid` with a best-effort
extracted id (the object's `id` field if it deserialises, else Null).
This deserialiser never fails. -/
def SendableMessage.fromJson (v : Json) : SendableMessage :=
  match MethodCall.fromJson v with
  | some req => .Request req
  | none =>
    match Notification.fromJson v with
    | some note => .Notification note
    | none =>
      let id :=
        match v with
        | .obj fields =>
          match fields.lookup "id" with
          | some idVal => (RequestId.fromJson idVal).getD RequestId.null
          | none => RequestId.null
        | _ => RequestId.Null
      .Invalid id

/-! ### The transport loop (`kuri/src/serve.rs`) -/

/-- `TransportError` from `transport/mod.rs`; payloads that the claims
never inspect are dropped. -/
inductive TransportError where
  | Io
  | Serialisation
  | Utf8
  | InvalidMessage (msg : String)
  | ChannelClosed
  | StdioProcessError (msg : String)
  | Unavailable
  deriving Repr

/-- One framed line as `parse_message` in `serve.rs` receives it: either
the JSON value produced by `serde_json::from_str`, a JSON parse failure
(`serde_json` error), or a line-codec failure. -/
inductive Line where
  | parsed (v : Json)
  | malformed
  | codecFailure
  deriving Repr

/-- `validate_jsonrpc_message` (`serve.rs`): the value must be a JSON
object whose `jsonrpc` field equals `"2.0"`. -/
def validateJsonrpcMessage : Json → Except TransportError Unit
  | .obj fields =>
    match fields.lookup "jsonrpc" with
    | some (.str "2.0") => .ok ()
    | _ => .error (.InvalidMessage "Missing or invalid JSON-RPC version")
  | _ => .error (.InvalidMessage "Message must be a JSON object")

/-- `parse_message` (`serve.rs:30`): propagate the codec failure, turn a
JSON parse failure into `TransportError::Serialisation`, validate the
envelope, then deserialise into a `SendableMessage` (which never fails). -/
def parseMessage : Line → Except TransportError SendableMessage
  | .codecFailure => .error .Io
  | .malformed => .error .Serialisation
  | .parsed v =>
    match validateJsonrpcMessage v with
    | .error e => .error e
    | .ok _ => .ok (SendableMessage.fromJson v)

/-- `process_message` (`serve.rs`): write the response to a request when
there is one, write nothing for a notification.  The match in the source
has no `Invalid` arm (it predates that variant), so that case is a
non-exhaustive match, modelled as the panic `none`.  Yields the list of
response items written to the transport. -/
def processMessage
    (svc : SendableMessage → Option (Option ResponseItem)) :
    SendableMessage → Option (List ResponseItem)
  | .Request req =>
    (svc (.Request req)).map fun response =>
      match response with
      | some r => [r]
      | none => []
  | .Notification note => (svc (.Notification note)).map fun _ => []
  | .Invalid _ => none

/-- One iteration of the read loop of `handle_connection` (`serve.rs:89`):
the response items written to the transport for one received line.  A
`parse_message` error is only logged — nothing is written and the loop
continues. -/
def handleLine (svc : SendableMessage → Option (Option ResponseItem))
    (line : Line) : Option (List ResponseItem) :=
  match parseMessage line with
  | .ok msg => processMessage svc msg
  | .error _ => some []

/-! ### Auxiliary predicates, counters and concrete instances used by the
theorems -/

/-- The invariant maintained by the framework's result folding
(`response.rs`): no registered tool handler ever returns a raw
`ToolError::ExecutionError` (execution errors are folded into a successful
`CallToolResult`).  Under this invariant the `unreachable!()` arm of
`From<ToolError> for RequestError` is indeed never reached. -/
def ToolsNeverExecError (s : MCPService) : Prop :=
  ∀ nm t, s.tools.lookup nm = some t →
    ∀ args msg, t.call args ≠ .error (.ExecutionError msg)

/-- The dispatch outcome `handle_tools_call` produces from a tool handler's
result: a success response on `Ok`, an error response through
`From<ToolError> for RequestError` on `Err` (whose `ExecutionError` arm
panics, modelled `none`). -/
def dispatchToolOutcome (id : RequestId) :
    Except ToolError CallToolResult → Option (Option ResponseItem)
  | .ok result => some (some (ResponseItem.success id result.toJson))
  | .error e =>
    match RequestError.fromToolError e with
    | some re =>
        some (some (ResponseItem.error id (ErrorData.fromRequestError re)))
    | none => none

/-- The number of response items whose id is not Null. -/
def countNonNullIdItems (items : List ResponseItem) : Nat :=
  (items.filter fun r => !r.rid.isNull).length

/-- The number of messages that are method calls (`Request` variants). -/
def countMethodCallMsgs (msgs : List SendableMessage) : Nat :=
  (msgs.filter fun m =>
    match m with
    | .Request _ => true
    | _ => false).length

/-- The number of messages that are answered with a non-Null id: method
calls whose own id is non-Null, plus `Invalid` placeholders carrying a
non-Null extracted id. -/
def countNonNullAnswerableMsgs (msgs : List SendableMessage) : Nat :=
  (msgs.filter fun m =>
    match m with
    | .Request req => !req.id.isNull
    | .Invalid i => !i.isNull
    | .Notification _ => false).length

/-- The shape of the message service's answer to one message: a method
call is answered by exactly one response item echoing its id, a
notification by none, and an `Invalid` placeholder by one error item
echoing the carried id. -/
def CallShape : SendableMessage → Option ResponseItem → Prop
  | .Request req, o => ∃ r, o = some r ∧ r.rid = req.id
  | .Notification _, o => o = none
  | .Invalid i, o => ∃ r, o = some r ∧ r.rid = i

/-- A built service with no tools or prompts registered (as in the
`tests/` fixtures before any registration). -/
def emptyToolService : MCPService :=
  (MCPServiceBuilder.new "Calculator").build

/-- A concrete macro-generated tool body: the parameter record is a `Nat`
whose deserialisation accepts any JSON (in particular JSON null) as `3`,
and the user function renders it as text. -/
def echoGenTool : GenTool Nat :=
  ⟨fun _ => some 3, fun n => successfulTextResponse (toString n)⟩

/-- The `ToolHandler` object the `#[tool]` macro would produce for
`echoGenTool`, registered under the name `"echo"`. -/
def echoToolHandler : ToolHandler :=
  ⟨"echo", "Echo the input", .obj [("type", .str "object")],
    genToolCall echoGenTool⟩

/-- A service with the single tool `"echo"` registered. -/
def echoService : MCPService :=
  ((MCPServiceBuilder.new "Echo").withTool echoToolHandler).build

/-- The service as built from a list of tool and prompt registrations
(`MCPServiceBuilder::new` followed by `with_tool`/`with_prompt` calls and
`build`). -/
def buildService (name : String) (ts : List ToolHandler)
    (ps : List PromptHandler) : MCPService :=
  ((ps.foldl MCPServiceBuilder.withPrompt
    (ts.foldl MCPServiceBuilder.withTool
      (MCPServiceBuilder.new name)))).build

/-- Two concrete tool handlers sharing the name `"dup"`. -/
def dupToolA : ToolHandler :=
  ⟨"dup", "first", .obj [], fun _ => intoCallToolResultUnit⟩

/-- See `dupToolA`. -/
def dupToolB : ToolHandler :=
  ⟨"dup", "second", .obj [], fun _ => intoCallToolResultUnit⟩

/-! ## Shared lemmas -/

@[simp]
theorem rid_success (id : RequestId) (v : Json) :
    (ResponseItem.success id v).rid = id := rfl

@[simp]
theorem rid_error (id : RequestId) (e : ErrorData) :
    (ResponseItem.error id e).rid = id := rfl

/-- Under the result-folding invariant, `call_tool` never yields a raw
`ExecutionError`. -/
theorem callTool_ne_execError {s : MCPService} (hs : ToolsNeverExecError s)
    (nm : String) (args : Json) (msg : String) :
    s.callTool nm args ≠ .error (.ExecutionError msg) := by
  intro h
  unfold MCPService.callTool at h
  cases hl : s.tools.lookup nm with
  | none => rw [hl] at h; simp at h
  | some t => rw [hl] at h; exact hs nm t hl args msg h

/-- `handle_tools_call` never panics under the result-folding invariant,
and every successful response it yields echoes the request's id. -/
theorem handleToolsCall_spec {s : MCPService} (hs : ToolsNeverExecError s)
    (req : MethodCall) :
    ∃ res, handleToolsCall s req = some res ∧
      ∀ r, res = .ok r → r.rid = req.id := by
  unfold handleToolsCall
  split
  · exact ⟨_, rfl, fun r hr => nomatch hr⟩
  · split
    · exact ⟨_, rfl, fun r hr => nomatch hr⟩
    · dsimp only
      split
      · exact ⟨_, rfl, fun r hr => by cases hr; rfl⟩
      · rename_i e h1
        cases e with
        | ExecutionError msg =>
          exact absurd h1 (callTool_ne_execError hs _ _ _)
        | InvalidParameters msg => exact ⟨_, rfl, fun r hr => nomatch hr⟩
        | SchemaError msg => exact ⟨_, rfl, fun r hr => nomatch hr⟩
        | NotFound msg => exact ⟨_, rfl, fun r hr => nomatch hr⟩

/-- Every successful response of `handle_resources_read` echoes the
request's id. -/
theorem handleResourcesRead_ok_id (s : MCPService) (req : MethodCall)
    (r : ResponseItem)
    (h : handleResourcesRead s req = some (.ok r)) : r.rid = req.id := by
  unfold handleResourcesRead at h
  simp only [Option.some.injEq] at h
  split at h
  · exact nomatch h
  · split at h
    · exact nomatch h
    · split at h
      · exact nomatch h
      · rename_i contents hread
        simp [MCPService.readResource] at hread

/-- Every successful response of `handle_prompts_get` echoes the request's
id. -/
theorem handlePromptsGet_ok_id (s : MCPService) (req : MethodCall)
    (r : ResponseItem)
    (h : handlePromptsGet s req = some (.ok r)) : r.rid = req.id := by
  unfold handlePromptsGet at h
  simp only [Option.some.injEq] at h
  split at h
  · exact nomatch h
  · split at h
    · exact nomatch h
    · split at h
      · exact nomatch h
      · split at h
        · exact nomatch h
        · cases h; rfl

/-- Shape of the message service's answer to any single message, under the
result-folding invariant: a method call yields exactly one response item
echoing its id, a notification none, an `Invalid` one error item with the
carried id — and the service never panics. -/
theorem MCPService_call_shape (s : MCPService) (hs : ToolsNeverExecError s)
    (msg : SendableMessage) :
    ∃ o, MCPService.call s msg = some o ∧ CallShape msg o := by
  cases msg with
  | Notification note => exact ⟨none, rfl, rfl⟩
  | Invalid i => exact ⟨_, rfl, _, rfl, rfl⟩
  | Request req =>
    have hres : ∃ res,
        (match req.method with
         | "ping" => handlePing s req
         | "initialize" => handleInitialize s req
         | "tools/list" => handleToolsList s req
         | "tools/call" => handleToolsCall s req
         | "resources/list" => handleResourcesList s req
         | "resources/read" => handleResourcesRead s req
         | "prompts/list" => handlePromptsList s req
         | "prompts/get" => handlePromptsGet s req
         | other => some (.error (.MethodNotFound other))) = some res ∧
        ∀ r, res = .ok r → r.rid = req.id := by
      split
      · exact ⟨_, rfl, fun r hr => by cases hr; rfl⟩
      · exact ⟨_, rfl, fun r hr => by cases hr; rfl⟩
      · exact ⟨_, rfl, fun r hr => by cases hr; rfl⟩
      · exact handleToolsCall_spec hs req
      · exact ⟨_, rfl, fun r hr => by cases hr; rfl⟩
      · exact ⟨_, rfl, fun r hr =>
          handleResourcesRead_ok_id s req r (by rw [← hr]; exact rfl)⟩
      · exact ⟨_, rfl, fun r hr => by cases hr; rfl⟩
      · exact ⟨_, rfl, fun r hr =>
          handlePromptsGet_ok_id s req r (by rw [← hr]; exact rfl)⟩
      · exact ⟨_, rfl, fun r hr => nomatch hr⟩
    obtain ⟨res, hsome, hid⟩ := hres
    cases res with
    | ok r =>
      refine ⟨some r, ?_, r, rfl, hid r rfl⟩
      simp only [MCPService.call, hsome]
    | error e =>
      refine ⟨some (ResponseItem.error req.id (ErrorData.fromRequestError e)),
        ?_, _, rfl, rfl⟩
      simp only [MCPService.call, hsome]

/-! ## C2: empty batch -/

/-- C2: when the request service's `call` is given a `Batch` whose message
list is empty, it returns `Response::Single(Some(item))` where `item` is an
`Error` with id Null, code `InvalidRequest`, and message
"Invalid request: batch is empty" — a single error, not a batch of one
error. -/
theorem emptyBatch_yields_single_invalidRequest_error (s : MCPService) :
    MCPRequestService.call (MCPService.call s) (.Batch []) =
      some (.Single (some (ResponseItem.error RequestId.Null
        ⟨.InvalidRequest, "Invalid request: batch is empty", none⟩))) := rfl

/-- C2 witness: the empty batch evaluated on a concrete service. -/
theorem emptyBatch_single_error_witness :
    MCPRequestService.call (MCPService.call emptyToolService) (.Batch []) =
      some (.Single (some (ResponseItem.error RequestId.Null
        ⟨.InvalidRequest, "Invalid request: batch is empty", none⟩))) :=
  emptyBatch_yields_single_invalidRequest_error emptyToolService

/-! ## C5: unknown tool / prompt names and the wire error code -/

/-- C5 (failing-input evaluation): a `tools/call` naming an unregistered
tool is answered with code `InvalidRequest` (−32600) and the bare tool
name as message, because `From<ToolError> for RequestError` routes
`ToolError::NotFound` to `RequestError::ToolNotFound`, which
`From<RequestError> for ErrorData` maps to `ErrorCode::InvalidRequest` —
not to `InvalidParams` (−32602) as the spec and the repository's own test
`test_tools_call_invalid_tool` require. -/
theorem toolsCall_unknown_tool_gets_invalidRequest_code :
    MCPService.call emptyToolService (.Request ⟨.V2, .Num 1, "tools/call",
        some (.Map [("name", .str "some_invalid_tool"),
                    ("arguments", .obj [])])⟩) =
      some (some (ResponseItem.error (.Num 1)
        ⟨.InvalidRequest, "some_invalid_tool", none⟩)) ∧
    ErrorCode.code .InvalidRequest = -32600 ∧
    ErrorCode.code .InvalidParams = -32602 :=
  ⟨rfl, rfl, rfl⟩

/-! ## C6: transport behaviour on a JSON parse failure -/

/-- C6 (failing-input evaluation): for a received line that fails JSON
deserialisation, the transport loop of `serve.rs` writes nothing at all
(the `parse_message` error is only logged and the loop continues), whereas
the spec and the repository's own test `test_invalid_json` require a
single `ResponseItem::Error` with id Null, code `ParseError` (−32700) and
message "JSON parsing error when deserialising the message". -/
theorem parse_failure_writes_no_response :
    (∀ svc, handleLine svc Line.malformed = some []) ∧
    ([] : List ResponseItem) ≠
      [ResponseItem.error RequestId.Null
        (ErrorData.new .ParseError
          "JSON parsing error when deserialising the message")] := by
  exact ⟨fun _ => rfl, by simp⟩

/-! ## C8: error-code round-trip -/

/-- C8 (counterexample): `Custom(−32700)` does not round-trip — its
integer representation deserialises to `ParseError`. -/
theorem errorCode_custom_reserved_no_roundtrip :
    ErrorCode.deserialize (ErrorCode.Custom (-32700)).code =
      ErrorCode.ParseError ∧
    ErrorCode.Custom (-32700) ≠ ErrorCode.ParseError := by
  exact ⟨by decide, by decide⟩

/-- C8 (amended): every `ErrorCode` round-trips through its integer
serialisation, except that `Custom(n)` must not collide with one of the
five reserved standard codes (−32700, −32600, −32601, −32602, −32603), in
which case deserialisation yields the corresponding named variant
instead. -/
theorem errorCode_roundtrips (c : ErrorCode)
    (h : match c with
         | ErrorCode.Custom n =>
             n ∉ ([-32700, -32600, -32601, -32602, -32603] : List Int)
         | _ => True) :
    ErrorCode.deserialize c.code = c := by
  cases c with
  | Custom n =>
    simp only [List.mem_cons, List.not_mem_nil, or_false, not_or] at h
    obtain ⟨h1, h2, h3, h4, h5⟩ := h
    simp [ErrorCode.deserialize, ErrorCode.code, h1, h2, h3, h4, h5]
  | ParseError => rfl
  | InvalidRequest => rfl
  | MethodNotFound => rfl
  | InvalidParams => rfl
  | InternalError => rfl

/-- C8 witness: the named codes and a non-reserved custom code
round-trip. -/
theorem errorCode_roundtrips_witness :
    ErrorCode.deserialize (ErrorCode.Custom 7).code = ErrorCode.Custom 7 ∧
    ErrorCode.deserialize ErrorCode.InvalidParams.code =
      ErrorCode.InvalidParams :=
  ⟨errorCode_roundtrips (.Custom 7) (by decide),
   errorCode_roundtrips .InvalidParams (by decide)⟩

/-! ## C4: result folding of execution errors -/

/-- C4: for every tool handler outcome `Err(ToolError::ExecutionError(msg))`,
the result-folding conversion yields
`Ok(CallToolResult{content: [Text("Error: " + msg)], is_error: true})`;
and whenever the inner conversion `f` never yields a raw `ExecutionError`
(true of every impl the framework provides, which never error at all), the
folded conversion never does either — so `ToolError::ExecutionError` never
reaches the `From<ToolError> for RequestError` conversion, whose
`ExecutionError` arm is unreachable. -/
theorem executionError_folded_not_propagated {T : Type}
    (f : T → Except ToolError CallToolResult)
    (hf : ∀ t msg, f t ≠ .error (.ExecutionError msg)) :
    (∀ msg, intoCallToolResultExcept f (.error (.ExecutionError msg)) =
      .ok ⟨[Content.text ("Error: " ++ msg)], true⟩) ∧
    (∀ res msg,
      intoCallToolResultExcept f res ≠ .error (.ExecutionError msg)) := by
  constructor
  · intro msg; rfl
  · intro res msg h
    cases res with
    | ok v => exact hf v msg h
    | error e => cases e <;> simp [intoCallToolResultExcept] at h

/-- C4 witness: folding at the `String` conversion
(`successful_text_response`): a division-by-zero execution error becomes a
logical error result, and a successful outcome is never a raw
`ExecutionError`. -/
theorem executionError_folded_witness :
    (intoCallToolResultExcept successfulTextResponse
        (.error (.ExecutionError "Division by zero")) =
      .ok ⟨[Content.text "Error: Division by zero"], true⟩) ∧
    intoCallToolResultExcept successfulTextResponse (.ok "3") ≠
      .error (.ExecutionError "x") := by
  have h := executionError_folded_not_propagated successfulTextResponse
    (by intro t msg hc; simp [successfulTextResponse] at hc)
  exact ⟨h.1 "Division by zero", h.2 (.ok "3") "x"⟩

/-! ## C1: one response per method call, echoing its id -/

/-- C1: for every `MethodCall` dispatched through the message service's
`call` — whatever the method name, including unknown methods, and whether
the handler succeeds or returns a `RequestError` — the service produces
exactly one `ResponseItem`, whose id equals the call's id.  (The
`ToolsNeverExecError` invariant records that registered tool handlers
never leak a raw `ExecutionError`; the framework's result folding
guarantees it — see C4 — and without it the Rust code would panic rather
than answer.) -/
theorem methodCall_one_response_same_id (s : MCPService)
    (hs : ToolsNeverExecError s) (m : MethodCall) :
    ∃ r : ResponseItem,
      MCPService.call s (.Request m) = some (some r) ∧ r.rid = m.id := by
  obtain ⟨o, ho, hshape⟩ := MCPService_call_shape s hs (.Request m)
  obtain ⟨r, rfl, hid⟩ := hshape
  exact ⟨r, ho, hid⟩

/-- C1 witness: a concrete ping call on a service with no tools is
answered by exactly one response carrying id 1. -/
theorem methodCall_one_response_same_id_witness :
    ∃ r : ResponseItem,
      MCPService.call emptyToolService
          (.Request ⟨.V2, .Num 1, "ping", none⟩) = some (some r) ∧
        r.rid = RequestId.Num 1 :=
  methodCall_one_response_same_id emptyToolService
    (fun nm t h => by
      simp [emptyToolService, MCPServiceBuilder.build,
        MCPServiceBuilder.new] at h)
    ⟨.V2, .Num 1, "ping", none⟩

/-! ## C3: batch response counting -/

/-- C3 (counterexample): the claim's count law fails on a batch holding a
single `Invalid` message with a non-Null extracted id (as produced e.g. by
a wrong-version envelope carrying `"id": 1`): the response batch has one
item with non-Null id, but the input has zero method calls. -/
theorem batch_nonNull_count_mismatch :
    MCPRequestService.call (MCPService.call emptyToolService)
        (.Batch [.Invalid (.Num 1)]) =
      some (.Batch [ResponseItem.error (.Num 1)
        (ErrorData.new .InvalidRequest "Invalid request")]) ∧
    countNonNullIdItems [ResponseItem.error (.Num 1)
        (ErrorData.new .InvalidRequest "Invalid request")] = 1 ∧
    countMethodCallMsgs [SendableMessage.Invalid (.Num 1)] = 0 :=
  ⟨rfl, rfl, rfl⟩

/-- The fan-out over a batch never panics under the result-folding
invariant, and the number of non-Null-id response items equals the number
of messages answered with a non-Null id. -/
theorem joinAll_call_counts (s : MCPService) (hs : ToolsNeverExecError s) :
    ∀ msgs : List SendableMessage, ∃ os,
      joinAll (MCPService.call s) msgs = some os ∧
      countNonNullIdItems (os.filterMap id) =
        countNonNullAnswerableMsgs msgs := by
  intro msgs
  induction msgs with
  | nil => exact ⟨[], rfl, rfl⟩
  | cons m rest ih =>
    obtain ⟨os, hos, hcount⟩ := ih
    obtain ⟨o, ho, hshape⟩ := MCPService_call_shape s hs m
    refine ⟨o :: os, ?_, ?_⟩
    · simp only [joinAll, ho, hos]
    · cases m with
      | Request req =>
        obtain ⟨r, rfl, hid⟩ := hshape
        cases hb : req.id.isNull <;>
          simpa [countNonNullIdItems, countNonNullAnswerableMsgs,
            List.filter_cons, hid, hb] using hcount
      | Notification note =>
        rw [show o = none from hshape]
        simpa [countNonNullIdItems, countNonNullAnswerableMsgs,
          List.filter_cons] using hcount
      | Invalid i =>
        obtain ⟨r, rfl, hid⟩ := hshape
        cases hb : i.isNull <;>
          simpa [countNonNullIdItems, countNonNullAnswerableMsgs,
            List.filter_cons, hid, hb] using hcount

/-- C3 (amended): for every non-empty batch, the number of response items
with a non-Null id equals the number of input messages that are answered
with a non-Null id: method calls whose id is non-Null plus `Invalid`
placeholders carrying a non-Null extracted id.  (The original count —
"messages that are MethodCalls" — over-counts method calls whose id is
Null and misses `Invalid` messages with extracted ids.) -/
theorem nonEmptyBatch_nonNull_response_count (s : MCPService)
    (hs : ToolsNeverExecError s) (msgs : List SendableMessage)
    (hne : msgs ≠ []) :
    ∃ items, MCPRequestService.call (MCPService.call s) (.Batch msgs) =
        some (.Batch items) ∧
      countNonNullIdItems items = countNonNullAnswerableMsgs msgs := by
  obtain ⟨os, hos, hcount⟩ := joinAll_call_counts s hs msgs
  have hE : msgs.isEmpty = false := by
    cases msgs with
    | nil => exact absurd rfl hne
    | cons a as => rfl
  refine ⟨os.filterMap id, ?_, hcount⟩
  simp [MCPRequestService.call, hE, hos]

/-- C3 witness: a mixed batch — a ping call with id 7, a notification, and
an id-less invalid message — on the empty service. -/
theorem nonEmptyBatch_nonNull_response_count_witness :
    ∃ items, MCPRequestService.call (MCPService.call emptyToolService)
        (.Batch [.Request ⟨.V2, .Num 7, "ping", none⟩,
                 .Notification ⟨.V2, "note", none⟩,
                 .Invalid .Null]) = some (.Batch items) ∧
      countNonNullIdItems items =
        countNonNullAnswerableMsgs
          [.Request ⟨.V2, .Num 7, "ping", none⟩,
           .Notification ⟨.V2, "note", none⟩,
           .Invalid .Null] :=
  nonEmptyBatch_nonNull_response_count emptyToolService
    (fun nm t h => by
      simp [emptyToolService, MCPServiceBuilder.build,
        MCPServiceBuilder.new] at h)
    _ (by simp)

/-! ## C7: tools/call parameter validation and null-defaulted arguments -/

/-- C7: `tools/call` params must be a map containing a required string
field `name` (otherwise an `InvalidParams` error response is returned),
and a missing `arguments` field defaults to JSON null, which is passed to
the named tool's handler: for a handler generated by the `#[tool]` macro
the dispatch outcome is exactly the handler applied to JSON null, so it
reaches the user's function iff the tool's parameter record deserialises
from JSON null, and otherwise is the `InvalidParams`
"Missing or incorrect tool arguments" error. -/
theorem toolsCall_requires_name_null_defaults_arguments {P : Type}
    (s : MCPService) (t : GenTool P) (h : ToolHandler) (nm : String)
    (id : RequestId)
    (hcall : h.call = genToolCall t)
    (hreg : s.tools.lookup nm = some h) :
    (MCPService.call s (.Request ⟨.V2, id, "tools/call", none⟩) =
      some (some (ResponseItem.error id
        ⟨.InvalidParams, "The request was empty", none⟩))) ∧
    (∀ xs, MCPService.call s (.Request ⟨.V2, id, "tools/call",
        some (.Array xs)⟩) =
      some (some (ResponseItem.error id
        ⟨.InvalidParams, "Parameters must be a map-like object", none⟩))) ∧
    (∀ fields, (fields.lookup "name").bind Json.asStr = none →
      MCPService.call s (.Request ⟨.V2, id, "tools/call",
          some (.Map fields)⟩) =
        some (some (ResponseItem.error id
          ⟨.InvalidParams, "No tool name was provided", none⟩))) ∧
    (∀ fields, fields.lookup "name" = some (.str nm) →
      fields.lookup "arguments" = none →
      MCPService.call s (.Request ⟨.V2, id, "tools/call",
          some (.Map fields)⟩) =
        dispatchToolOutcome id (genToolCall t Json.null)) ∧
    (t.deser Json.null = none →
      ∀ fields, fields.lookup "name" = some (.str nm) →
      fields.lookup "arguments" = none →
      MCPService.call s (.Request ⟨.V2, id, "tools/call",
          some (.Map fields)⟩) =
        some (some (ResponseItem.error id
          ⟨.InvalidParams, "Missing or incorrect tool arguments", none⟩))) ∧
    (∀ p r, t.deser Json.null = some p → t.run p = .ok r →
      ∀ fields, fields.lookup "name" = some (.str nm) →
      fields.lookup "arguments" = none →
      MCPService.call s (.Request ⟨.V2, id, "tools/call",
          some (.Map fields)⟩) =
        some (some (ResponseItem.success id r.toJson))) := by
  have key : ∀ fields, fields.lookup "name" = some (.str nm) →
      fields.lookup "arguments" = none →
      MCPService.call s (.Request ⟨.V2, id, "tools/call",
          some (.Map fields)⟩) =
        dispatchToolOutcome id (genToolCall t Json.null) := by
    intro fields h1 h2
    simp only [MCPService.call, handleToolsCall, getRequestParams, h1, h2,
      Option.bind, Json.asStr, Option.getD, MCPService.callTool, hreg, hcall]
    cases genToolCall t Json.null with
    | ok r => rfl
    | error e =>
      cases hf : RequestError.fromToolError e with
      | some re => simp [dispatchToolOutcome, hf]
      | none => simp [dispatchToolOutcome, hf]
  refine ⟨rfl, fun xs => rfl, ?_, key, ?_, ?_⟩
  · intro fields hn
    simp only [MCPService.call, handleToolsCall, getRequestParams, hn]
    rfl
  · intro hdes fields h1 h2
    rw [key fields h1 h2]
    simp [genToolCall, hdes, dispatchToolOutcome, RequestError.fromToolError,
      ErrorData.fromRequestError]
  · intro p r hdes hrun fields h1 h2
    rw [key fields h1 h2]
    simp [genToolCall, hdes, hrun, dispatchToolOutcome]

/-- C7 witness: calling the registered `"echo"` tool (whose parameter
record accepts JSON null) without an `arguments` field succeeds, producing
the user function's rendered result. -/
theorem toolsCall_null_defaults_witness :
    MCPService.call echoService (.Request ⟨.V2, .Num 1, "tools/call",
        some (.Map [("name", .str "echo")])⟩) =
      some (some (ResponseItem.success (.Num 1)
        (CallToolResult.toJson ⟨[Content.text "3"], false⟩))) := by
  have h := toolsCall_requires_name_null_defaults_arguments echoService
    echoGenTool echoToolHandler "echo" (.Num 1) rfl rfl
  exact h.2.2.2.2.2 3 ⟨[Content.text "3"], false⟩ rfl rfl
    [("name", .str "echo")] rfl rfl

/-! ## C9: MethodCall classification and the id field -/

/-- C9 (counterexample): a message whose `id` field is explicit JSON null
deserialises successfully as a `MethodCall` whose id is `Null` — it is
classified as a `Request`, not as a `Notification` or `Invalid`. -/
theorem nullId_message_classified_as_methodCall :
    SendableMessage.fromJson (.obj [("jsonrpc", .str "2.0"),
        ("id", .null), ("method", .str "m")]) =
      .Request ⟨.V2, .Null, "m", none⟩ := rfl

/-- C9 (amended): every value that deserialises as a `MethodCall` is an
object with an `id` field present and deserialisable as a `RequestId`
equal to the call's id — so a message with an absent `id` is never
classified as a `MethodCall`; but the `id` field may be explicit JSON
null, in which case the call's id is `Null`. -/
theorem methodCall_has_id_field (v : Json) (mc : MethodCall)
    (h : SendableMessage.fromJson v = .Request mc) :
    ∃ fields idVal, v = .obj fields ∧ fields.lookup "id" = some idVal ∧
      RequestId.fromJson idVal = some mc.id := by
  unfold SendableMessage.fromJson at h
  cases hmc : MethodCall.fromJson v with
  | none =>
    rw [hmc] at h
    cases hnote : Notification.fromJson v with
    | none => rw [hnote] at h; exact nomatch h
    | some note => rw [hnote] at h; exact nomatch h
  | some req =>
    rw [hmc] at h
    cases h
    unfold MethodCall.fromJson at hmc
    cases v with
    | obj fields =>
      dsimp only at hmc
      cases hj : (fields.lookup "jsonrpc").bind JsonRpcVersion.fromJson with
      | none => rw [hj] at hmc; exact nomatch hmc
      | some ver =>
        rw [hj] at hmc
        simp only [Option.bind_eq_bind, Option.some_bind] at hmc
        cases hI : fields.lookup "id" with
        | none => rw [hI] at hmc; exact nomatch hmc
        | some idVal =>
          rw [hI] at hmc
          simp only [Option.some_bind'] at hmc
          cases hrid : RequestId.fromJson idVal with
          | none => rw [hrid] at hmc; exact nomatch hmc
          | some rid =>
            rw [hrid] at hmc
            simp only [Option.some_bind'] at hmc
            cases hm : (fields.lookup "method").bind Json.asStr with
            | none => rw [hm] at hmc; exact nomatch hmc
            | some method =>
              rw [hm] at hmc
              simp only [Option.some_bind'] at hmc
              cases hp : paramsFieldFromJson fields with
              | none => rw [hp] at hmc; exact nomatch hmc
              | some params =>
                rw [hp] at hmc
                simp only [Option.some_bind', Option.some.injEq] at hmc
                refine ⟨fields, idVal, rfl, hI, ?_⟩
                rw [hrid, ← hmc]
    | null => exact nomatch hmc
    | bool b => exact nomatch hmc
    | num n => exact nomatch hmc
    | str s => exact nomatch hmc
    | arr xs => exact nomatch hmc

/-- C9 witness: the amended statement applied to the null-id message. -/
theorem methodCall_has_id_field_witness :
    ∃ fields idVal,
      (Json.obj [("jsonrpc", .str "2.0"), ("id", .null),
        ("method", .str "m")]) = .obj fields ∧
      fields.lookup "id" = some idVal ∧
      RequestId.fromJson idVal = some RequestId.Null :=
  methodCall_has_id_field _ ⟨.V2, .Null, "m", none⟩ rfl

/-! ## C10: registration by name and uniqueness of listings -/

/-- Looking up the inserted key after `HashMap::insert` finds the new
value: insertion replaces. -/
theorem mapInsert_lookup_self {α : Type} (m : List (String × α)) (k : String)
    (v : α) : (mapInsert m k v).lookup k = some v := by
  induction m with
  | nil => simp [mapInsert, List.lookup]
  | cons kv rest ih =>
    obtain ⟨k', v'⟩ := kv
    by_cases hk : k' = k
    · simp [mapInsert, hk, List.lookup]
    · have hb : (k == k') = false :=
        beq_eq_false_iff_ne.mpr fun h => hk h.symm
      simp [mapInsert, hk, List.lookup, hb, ih]

/-- Rewriting `mapInsert` at a cons cell whose key matches. -/
theorem mapInsert_cons_eq {α : Type} (k' : String) (v' : α)
    (rest : List (String × α)) (v : α) :
    mapInsert ((k', v') :: rest) k' v = (k', v) :: rest := by
  simp [mapInsert]

/-- Rewriting `mapInsert` at a cons cell whose key differs. -/
theorem mapInsert_cons_ne {α : Type} {k' key : String} (v' : α)
    (rest : List (String × α)) (v : α) (he : ¬ k' = key) :
    mapInsert ((k', v') :: rest) key v =
      (k', v') :: mapInsert rest key v := by
  simp [mapInsert, he]

/-- A key of the map after insertion is the inserted key or an old key. -/
theorem mem_keys_mapInsert {α : Type} {m : List (String × α)}
    {k key : String} {v : α}
    (h : k ∈ (mapInsert m key v).map Prod.fst) :
    k = key ∨ k ∈ m.map Prod.fst := by
  induction m with
  | nil =>
    simp only [mapInsert, List.map_cons, List.map_nil, List.mem_cons,
      List.not_mem_nil, or_false] at h
    exact .inl h
  | cons kv rest ih =>
    obtain ⟨k', v'⟩ := kv
    simp only [List.map_cons, List.mem_cons]
    by_cases he : k' = key
    · subst he
      rw [mapInsert_cons_eq, List.map_cons] at h
      rcases List.mem_cons.mp h with h1 | h1
      · exact .inl h1
      · exact .inr (.inr h1)
    · rw [mapInsert_cons_ne v' rest v he, List.map_cons] at h
      rcases List.mem_cons.mp h with h1 | h1
      · exact .inr (.inl h1)
      · rcases ih h1 with h2 | h2
        · exact .inl h2
        · exact .inr (.inr h2)

/-- An entry of the map after insertion is the inserted binding or an old
entry. -/
theorem mem_mapInsert {α : Type} {m : List (String × α)} {key : String}
    {v : α} {kv : String × α} (h : kv ∈ mapInsert m key v) :
    kv = (key, v) ∨ kv ∈ m := by
  induction m with
  | nil =>
    simp only [mapInsert, List.mem_cons, List.not_mem_nil, or_false] at h
    exact .inl h
  | cons kv' rest ih =>
    obtain ⟨k', v'⟩ := kv'
    by_cases he : k' = key
    · subst he
      rw [mapInsert_cons_eq] at h
      rcases List.mem_cons.mp h with h1 | h1
      · exact .inl h1
      · exact .inr (List.mem_cons.mpr (.inr h1))
    · rw [mapInsert_cons_ne v' rest v he] at h
      rcases List.mem_cons.mp h with h1 | h1
      · exact .inr (List.mem_cons.mpr (.inl h1))
      · rcases ih h1 with h2 | h2
        · exact .inl h2
        · exact .inr (List.mem_cons.mpr (.inr h2))

/-- `HashMap::insert` keeps the keys of the map pairwise distinct. -/
theorem mapInsert_keys_nodup {α : Type} {m : List (String × α)}
    (h : (m.map Prod.fst).Nodup) (key : String) (v : α) :
    ((mapInsert m key v).map Prod.fst).Nodup := by
  induction m with
  | nil => simp [mapInsert]
  | cons kv rest ih =>
    obtain ⟨k', v'⟩ := kv
    simp only [List.map_cons, List.nodup_cons] at h
    obtain ⟨hk, hrest⟩ := h
    by_cases he : k' = key
    · subst he
      rw [mapInsert_cons_eq, List.map_cons, List.nodup_cons]
      exact ⟨hk, hrest⟩
    · rw [mapInsert_cons_ne v' rest v he, List.map_cons, List.nodup_cons]
      refine ⟨?_, ih hrest⟩
      intro hin
      rcases mem_keys_mapInsert hin with h2 | h2
      · exact he h2
      · exact hk h2

/-- A fold of keyed insertions keeps the keys pairwise distinct. -/
theorem foldl_mapInsert_keys_nodup {α : Type} (keyOf : α → String)
    (xs : List α) (m : List (String × α)) (h : (m.map Prod.fst).Nodup) :
    ((xs.foldl (fun acc x => mapInsert acc (keyOf x) x) m).map
      Prod.fst).Nodup := by
  induction xs generalizing m with
  | nil => simpa using h
  | cons x rest ih => exact ih _ (mapInsert_keys_nodup h _ _)

/-- A fold of insertions keyed by each value's own name keeps every
entry's key equal to its value's name. -/
theorem foldl_mapInsert_name_keys {α : Type} (keyOf : α → String)
    (xs : List α) (m : List (String × α))
    (h : ∀ kv ∈ m, keyOf kv.2 = kv.1) :
    ∀ kv ∈ xs.foldl (fun acc x => mapInsert acc (keyOf x) x) m,
      keyOf kv.2 = kv.1 := by
  induction xs generalizing m with
  | nil => simpa using h
  | cons x rest ih =>
    refine ih _ ?_
    intro kv hkv
    rcases mem_mapInsert hkv with h2 | h2
    · subst h2; rfl
    · exact h kv h2

/-- The tool map of a builder after a sequence of `with_tool` calls. -/
theorem foldl_withTool_tools (ts : List ToolHandler)
    (b : MCPServiceBuilder) :
    (ts.foldl MCPServiceBuilder.withTool b).tools =
      ts.foldl (fun m t => mapInsert m t.name t) b.tools := by
  induction ts generalizing b with
  | nil => rfl
  | cons t rest ih => simp [List.foldl_cons, ih, MCPServiceBuilder.withTool]

/-- `with_tool` does not touch the prompt map. -/
theorem foldl_withTool_prompts (ts : List ToolHandler)
    (b : MCPServiceBuilder) :
    (ts.foldl MCPServiceBuilder.withTool b).prompts = b.prompts := by
  induction ts generalizing b with
  | nil => rfl
  | cons t rest ih => simp [List.foldl_cons, ih, MCPServiceBuilder.withTool]

/-- The prompt map of a builder after a sequence of `with_prompt` calls. -/
theorem foldl_withPrompt_prompts (ps : List PromptHandler)
    (b : MCPServiceBuilder) :
    (ps.foldl MCPServiceBuilder.withPrompt b).prompts =
      ps.foldl (fun m p => mapInsert m p.name p) b.prompts := by
  induction ps generalizing b with
  | nil => rfl
  | cons p rest ih =>
    simp [List.foldl_cons, ih, MCPServiceBuilder.withPrompt]

/-- `with_prompt` does not touch the tool map. -/
theorem foldl_withPrompt_tools (ps : List PromptHandler)
    (b : MCPServiceBuilder) :
    (ps.foldl MCPServiceBuilder.withPrompt b).tools = b.tools := by
  induction ps generalizing b with
  | nil => rfl
  | cons p rest ih =>
    simp [List.foldl_cons, ih, MCPServiceBuilder.withPrompt]

/-- C10: registering a tool (or prompt) whose `name()` equals that of an
already-registered one on the builder replaces the earlier handler, so in
every built service the tool and prompt maps hold at most one handler per
name and `tools/list` and `prompts/list` never list two entries with the
same name. -/
theorem registration_replaces_and_listings_unique (name0 : String)
    (ts : List ToolHandler) (ps : List PromptHandler) :
    (∀ (b : MCPServiceBuilder) (t t' : ToolHandler), t'.name = t.name →
      ((b.withTool t).withTool t').tools.lookup t.name = some t') ∧
    (∀ (b : MCPServiceBuilder) (p p' : PromptHandler), p'.name = p.name →
      ((b.withPrompt p).withPrompt p').prompts.lookup p.name = some p') ∧
    ((buildService name0 ts ps).tools.map Prod.fst).Nodup ∧
    ((buildService name0 ts ps).prompts.map Prod.fst).Nodup ∧
    ((buildService name0 ts ps).listTools.map Tool.name).Nodup ∧
    ((buildService name0 ts ps).listPrompts.map Prompt.name).Nodup := by
  have htools : (buildService name0 ts ps).tools =
      ts.foldl (fun m t => mapInsert m t.name t) [] := by
    simp [buildService, MCPServiceBuilder.build, foldl_withPrompt_tools,
      foldl_withTool_tools, MCPServiceBuilder.new]
  have hprompts : (buildService name0 ts ps).prompts =
      ps.foldl (fun m p => mapInsert m p.name p) [] := by
    simp [buildService, MCPServiceBuilder.build, foldl_withPrompt_prompts,
      foldl_withTool_prompts, MCPServiceBuilder.new]
  have htn : ((buildService name0 ts ps).tools.map Prod.fst).Nodup := by
    rw [htools]
    exact foldl_mapInsert_keys_nodup ToolHandler.name ts [] (by simp)
  have hpn : ((buildService name0 ts ps).prompts.map Prod.fst).Nodup := by
    rw [hprompts]
    exact foldl_mapInsert_keys_nodup PromptHandler.name ps [] (by simp)
  have hpk : ∀ kv ∈ (buildService name0 ts ps).prompts,
      PromptHandler.name kv.2 = kv.1 := by
    rw [hprompts]
    exact foldl_mapInsert_name_keys PromptHandler.name ps [] (by simp)
  refine ⟨?_, ?_, htn, hpn, ?_, ?_⟩
  · intro b t t' ht
    show (mapInsert (mapInsert b.tools t.name t) t'.name t').lookup t.name =
      some t'
    rw [ht]
    exact mapInsert_lookup_self _ _ _
  · intro b p p' hp
    show (mapInsert (mapInsert b.prompts p.name p) p'.name p').lookup
      p.name = some p'
    rw [hp]
    exact mapInsert_lookup_self _ _ _
  · have : (buildService name0 ts ps).listTools.map Tool.name =
        (buildService name0 ts ps).tools.map Prod.fst := by
      simp [MCPService.listTools, List.map_map]
    rw [this]
    exact htn
  · have : (buildService name0 ts ps).listPrompts.map Prompt.name =
        (buildService name0 ts ps).prompts.map Prod.fst := by
      simp only [MCPService.listPrompts, List.map_map]
      exact List.map_congr_left fun kv hkv => hpk kv hkv
    rw [this]
    exact hpn

/-- C10 witness: registering two tool handlers both named `"dup"` leaves
only the second under that name. -/
theorem registration_replaces_witness :
    (((MCPServiceBuilder.new "W").withTool dupToolA).withTool
        dupToolB).tools.lookup "dup" = some dupToolB :=
  (registration_replaces_and_listings_unique "W" [] []).1
    (MCPServiceBuilder.new "W") dupToolA dupToolB rfl

end Kuri
